import Mathlib

/-!
Verification of the ISIS_SRexplorer topology engine.

Shallow embedding of `graph.py` (the VNode/VEdge identity model) and of
the topology-construction functions of `main.py` (system-id lookup and
normalization, adjacency extraction with the shared adjacency matrix,
Node-SID assignment from prefix advertisements, the link-pairing /
edge-drawing plan, and the shortest-path query guard).  Python objects
become Lean structures; Python `uuid.uuid4()` identity tokens become
explicit `Nat` tokens threaded by the caller; mutation becomes explicit
state passing; `assert`-guarded setters become `Option`-returning
functions; Python negative list indexing is modelled explicitly.
-/

namespace SRexplorer

/-! ## Identity model (`graph.py`) -/

/-- `VNode` from `graph.py`: a router.  `uuid` models the
`uuid.uuid4()` identity token assigned at construction. -/
structure VNode where
  uuid : Nat
  name : String
  nsid : Int
  system_id : String
  deriving Repr, DecidableEq

/-- The `VNode.__init__` constructor: `nsid` starts at `0`. -/
def VNode.make (name system_id : String) (uuid : Nat) : VNode :=
  { uuid := uuid, name := name, nsid := 0, system_id := system_id }

/-- `VNode.__eq__`: equal iff the uuids are equal AND the `_system_id`
strings are equal (the `isinstance` branch; both sides are `VNode`s here). -/
def VNode.eqPy (a b : VNode) : Bool :=
  a.uuid == b.uuid && a.system_id == b.system_id

/-- `VNode.__hash__`: `hash(self._uuid)` — derived solely from the uuid.
Python's `hash` on the uuid token is modelled as the token itself. -/
def VNode.hashPy (a : VNode) : Nat :=
  a.uuid

/-- The `VNode.system_id` setter (the `isinstance(value, str)` assertion
always holds for a `String` argument). -/
def VNode.setSystemId (a : VNode) (value : String) : VNode :=
  { a with system_id := value }

/-- The `VNode.nsid` setter. -/
def VNode.setNsid (a : VNode) (value : Int) : VNode :=
  { a with nsid := value }

/-- `VEdge` from `graph.py`: one directed adjacency.  `inf_mac` is
`none` until the validated setter has run (reading it before that raises
`AttributeError` in Python). -/
structure VEdge where
  uuid : Nat
  src : VNode
  dst : VNode
  adj_sid : Int
  inf_name : String
  nei_snpa : String
  inf_mac : Option String
  deriving Repr, DecidableEq

/-- The `VEdge.__init__` constructor: `_inf_name` and `_nei_snpa` start
empty, `_inf_mac` unset. -/
def VEdge.make (v1 v2 : VNode) (adj_sid : Int) (uuid : Nat) : VEdge :=
  { uuid := uuid, src := v1, dst := v2, adj_sid := adj_sid,
    inf_name := "", nei_snpa := "", inf_mac := none }

/-- Python `value.startswith('0x')`: the first two characters are `0`
then `x`. -/
def startsWith0x (s : String) : Bool :=
  match s.data with
  | '0' :: 'x' :: _ => true
  | _ => false

/-- The `VEdge.inf_mac` setter: asserts `len(value) == 14` and
`value.startswith('0x')`; an assertion failure leaves the field unset,
modelled by `none`. -/
def VEdge.setInfMac (e : VEdge) (value : String) : Option VEdge :=
  if value.length = 14 ∧ startsWith0x value = true then
    some { e with inf_mac := some value }
  else
    none

/-- Modelled from the spec's words, for comparison with
`VEdge.setInfMac` only: the claimed MAC write format, a `0x` marker
followed by 12 lowercase hex digits (total length 14). -/
def specMacFormat (s : String) : Bool :=
  s.length = 14 && startsWith0x s &&
    (s.data.drop 2).all (fun c => ('0' ≤ c && c ≤ '9') || ('a' ≤ c && c ≤ 'f'))

/-! ## Claims C7 and C8 -/

/-- C7: for all Nodes `a` and `b`, `a` equals `b` iff their identity
tokens are equal and their owning-system strings are equal; the hash
depends only on the identity token, so equal nodes have equal hashes,
and mutating the owning-system field never changes the hash. -/
theorem C7_vnode_eq_hash (a b : VNode) (s t : String) :
    (VNode.eqPy a b = true ↔ a.uuid = b.uuid ∧ a.system_id = b.system_id) ∧
    (VNode.eqPy a b = true → VNode.hashPy a = VNode.hashPy b) ∧
    VNode.hashPy (VNode.setSystemId a s) = VNode.hashPy a ∧
    (VNode.eqPy a b = true →
      VNode.hashPy (VNode.setSystemId a s) = VNode.hashPy (VNode.setSystemId b t)) := by
  refine ⟨?_, ?_, rfl, ?_⟩
  · simp [VNode.eqPy]
  · intro h
    simp [VNode.eqPy] at h
    simp [VNode.hashPy, h.1]
  · intro h
    simp [VNode.eqPy] at h
    simp [VNode.hashPy, VNode.setSystemId, h.1]

/-- Witness for C7 at concrete nodes sharing a uuid but with a mutated
owning-system field. -/
theorem C7_vnode_eq_hash_witness :
    VNode.hashPy (VNode.make "A" "0000.0000.0001" 5) =
      VNode.hashPy (VNode.setSystemId (VNode.make "A" "0000.0000.0001" 5) "ffff.ffff.ffff") := by
  exact ((C7_vnode_eq_hash (VNode.make "A" "0000.0000.0001" 5)
      (VNode.make "A" "0000.0000.0001" 5) "x" "y").2.1 (by decide)).trans
    (C7_vnode_eq_hash (VNode.make "A" "0000.0000.0001" 5)
      (VNode.make "A" "0000.0000.0001" 5) "ffff.ffff.ffff" "y").2.2.1.symm

/-- C8 counterexample: the claim says the interface-MAC write succeeds
exactly for `0x` plus 12 lowercase hex digits, but the setter accepts
`"0xGGGGGGGGGGGG"` (length 14, starts with `0x`, not hex digits). -/
theorem C8_counterexample :
    (VEdge.setInfMac (VEdge.make (VNode.make "A" "0000.0000.0001" 0)
        (VNode.make "B" "0000.0000.0002" 1) 20001 2) "0xGGGGGGGGGGGG").isSome = true ∧
    specMacFormat "0xGGGGGGGGGGGG" = false := by
  constructor
  · decide
  · decide

/-- C8 amended: the interface-MAC write succeeds exactly when the string
has length 14 and starts with `0x`; the hex-digit content of the last 12
characters is not validated. -/
theorem C8_mac_setter (e : VEdge) (value : String) :
    (VEdge.setInfMac e value).isSome = true ↔
      value.length = 14 ∧ startsWith0x value = true := by
  unfold VEdge.setInfMac
  by_cases h : value.length = 14 ∧ startsWith0x value = true
  · simp [h]
  · simp [h]

/-- Witness for C8 amended at a concrete valid MAC string. -/
theorem C8_mac_setter_witness :
    (VEdge.setInfMac (VEdge.make (VNode.make "A" "0000.0000.0001" 0)
        (VNode.make "B" "0000.0000.0002" 1) 20001 2) "0x0a1b2c3d4e5f").isSome = true := by
  exact (C8_mac_setter _ "0x0a1b2c3d4e5f").2 (by constructor <;> decide)

/-! ## Neighbor system-id normalization (`get_inf_adjs`, lines 145-146) -/

/-- Python `s.replace('0x', '')`: delete every non-overlapping
occurrence of the two-character pattern `0x`, scanning left to right. -/
def replace0x : List Char → List Char
  | [] => []
  | [c] => [c]
  | c1 :: c2 :: rest =>
    if c1 = '0' ∧ c2 = 'x' then replace0x rest
    else c1 :: replace0x (c2 :: rest)

/-- The chunking comprehension `[s[i:i+4] for i in range(0, len(s), 4)]`:
each slice takes the next four characters, the last slice may be
shorter. -/
def chunk4 : List Char → List (List Char)
  | [] => []
  | [a] => [[a]]
  | [a, b] => [[a, b]]
  | [a, b, c] => [[a, b, c]]
  | a :: b :: c :: d :: rest => [a, b, c, d] :: chunk4 rest

/-- Python `'.'.join(chunks)`. -/
def joinDots : List (List Char) → List Char
  | [] => []
  | [x] => x
  | x :: y :: rest => x ++ '.' :: joinDots (y :: rest)

/-- The two normalization lines of `get_inf_adjs`: strip the `0x`
marker via `replace`, then re-chunk into 4-character groups joined by
`.`. -/
def normSysIdChars (l : List Char) : List Char :=
  joinDots (chunk4 (replace0x l))

/-- String-level view of the normalization. -/
def normSysId (s : String) : String :=
  String.mk (normSysIdChars s.data)

theorem replace0x_of_no_x {l : List Char} (h : 'x' ∉ l) : replace0x l = l := by
  match l with
  | [] => rfl
  | [c] => rfl
  | c1 :: c2 :: rest =>
    have hc2 : c2 ≠ 'x' := by
      intro he
      exact h (by simp [he])
    have htail : 'x' ∉ c2 :: rest := by
      intro hm
      exact h (List.mem_cons_of_mem _ hm)
    rw [replace0x, if_neg (by
      intro hp
      exact hc2 hp.2)]
    rw [replace0x_of_no_x htail]

theorem chunk4_flatten (l : List Char) : (chunk4 l).flatten = l := by
  match l with
  | [] => rfl
  | [a] => rfl
  | [a, b] => rfl
  | [a, b, c] => rfl
  | a :: b :: c :: d :: rest =>
    simp only [chunk4, List.flatten_cons, chunk4_flatten rest]
    rfl

theorem joinDots_filter (cs : List (List Char)) (h : ∀ c ∈ cs, '.' ∉ c) :
    (joinDots cs).filter (fun c => c ≠ '.') = cs.flatten := by
  match cs with
  | [] => rfl
  | [x] =>
    have hx : '.' ∉ x := h x (by simp)
    simp only [joinDots, List.flatten, List.append_nil]
    exact List.filter_eq_self.mpr (fun c hc => by
      simp only [ne_eq, decide_eq_true_eq]
      intro he
      exact hx (he ▸ hc))
  | x :: y :: rest =>
    have hx : '.' ∉ x := h x (by simp)
    have htail : ∀ c ∈ y :: rest, '.' ∉ c := fun c hc => h c (List.mem_cons_of_mem _ hc)
    simp only [joinDots, List.flatten_cons, List.filter_append, List.filter_cons]
    rw [joinDots_filter (y :: rest) htail]
    have hxf : x.filter (fun c => c ≠ '.') = x :=
      List.filter_eq_self.mpr (fun c hc => by
        simp only [ne_eq, decide_eq_true_eq]
        intro he
        exact hx (he ▸ hc))
    simp only [List.flatten_cons] at *
    rw [hxf]
    norm_num

theorem chunk4_mem_no_dot {l : List Char} (h : '.' ∉ l) :
    ∀ c ∈ chunk4 l, '.' ∉ c := by
  intro c hc hd
  have : c.Sublist (chunk4 l).flatten := by
    exact List.sublist_flatten_of_mem hc
  rw [chunk4_flatten] at this
  exact h (this.mem hd)

/-- C3: normalization strips the literal `0x` marker and re-chunks the
remaining hex digits into 4-character groups joined by `.`, preserving
the hex digits (hence their count); in particular
`normalize("0x000000000001") = "0000.0000.0001"`. -/
theorem C3_normalize_sys_id (t : List Char) (hx : 'x' ∉ t) (hd : '.' ∉ t) :
    (normSysIdChars ('0' :: 'x' :: t)).filter (fun c => c ≠ '.') = t ∧
    normSysId "0x000000000001" = "0000.0000.0001" := by
  constructor
  · unfold normSysIdChars
    have h1 : replace0x ('0' :: 'x' :: t) = t := by
      rw [replace0x, if_pos ⟨rfl, rfl⟩]
      exact replace0x_of_no_x hx
    rw [h1, joinDots_filter _ (chunk4_mem_no_dot hd), chunk4_flatten]
  · decide

/-- Witness for C3 at the concrete raw identifier `0x000000000001`. -/
theorem C3_normalize_sys_id_witness :
    (normSysIdChars ('0' :: 'x' :: "000000000001".data)).filter (fun c => c ≠ '.') =
      "000000000001".data :=
  (C3_normalize_sys_id "000000000001".data (by decide) (by decide)).1

/-! ## Node lookups (`sys_id_in_nodes`, `sys_to_idx`, `name_to_idx`) -/

/-- `sys_id_in_nodes`: linear scan for a node with the given system id. -/
def sys_id_in_nodes : List VNode → String → Bool
  | [], _ => false
  | node :: rest, system_id =>
    if node.system_id = system_id then true else sys_id_in_nodes rest system_id

/-- The counting loop of `sys_to_idx`, with the running index made
explicit. -/
def sysToIdxAux : List VNode → String → Nat → Int
  | [], _, _ => -1
  | node :: rest, system_id, idx =>
    if node.system_id = system_id then (idx : Int) else sysToIdxAux rest system_id (idx + 1)

/-- `sys_to_idx`: index of the first node with the given system id, or
`-1` when none matches. -/
def sys_to_idx (nodes : List VNode) (system_id : String) : Int :=
  sysToIdxAux nodes system_id 0

/-- The counting loop of `name_to_idx`. -/
def nameToIdxAux : List VNode → String → Nat → Int
  | [], _, _ => -1
  | node :: rest, name, idx =>
    if node.name = name then (idx : Int) else nameToIdxAux rest name (idx + 1)

/-- Python `name.strip()`: drop whitespace from both ends. -/
def pyStrip (s : String) : String :=
  String.mk (((s.data.dropWhile Char.isWhitespace).reverse.dropWhile Char.isWhitespace).reverse)

/-- `name_to_idx`: the query name is stripped of surrounding whitespace
first; index of the first node with that name, or `-1`. -/
def name_to_idx (nodes : List VNode) (name : String) : Int :=
  nameToIdxAux nodes (pyStrip name) 0

/-- Python list indexing `l[i]`: a negative index counts from the end;
`none` models an `IndexError`. -/
def pyGet (l : List VNode) (i : Int) : Option VNode :=
  if i < 0 then
    if (-i).toNat ≤ l.length then l.get? (l.length - (-i).toNat) else none
  else
    l.get? i.toNat

/-! ## Path Query guard (`main`, lines 440-448) -/

/-- Outcome of the SPF block in `main`: no query when either argument is
absent; `skipped` (the printed "Skipping SPF" branch) when a name does
not resolve; otherwise the resolved index pair handed to the
shortest-path computation. -/
inductive SpfOutcome where
  | noQuery
  | skipped
  | compute (srcIdx dstIdx : Nat)
  deriving Repr, DecidableEq

/-- The SPF block of `main`: runs only when both `-s` and `-d` were
given, resolves both names with `name_to_idx`, and computes a path only
when neither resolution returned `-1`. -/
def spfBlock (nodes : List VNode) (srcArg dstArg : Option String) : SpfOutcome :=
  match srcArg, dstArg with
  | some src, some dst =>
    let src_idx := name_to_idx nodes src
    let dst_idx := name_to_idx nodes dst
    if src_idx ≠ -1 ∧ dst_idx ≠ -1 then
      SpfOutcome.compute src_idx.toNat dst_idx.toNat
    else
      SpfOutcome.skipped
  | _, _ => SpfOutcome.noQuery

theorem nameToIdxAux_eq_neg_one {nodes : List VNode} {nm : String}
    (h : ∀ n ∈ nodes, n.name ≠ nm) : ∀ k, nameToIdxAux nodes nm k = -1 := by
  intro k
  induction nodes generalizing k with
  | nil => rfl
  | cons node rest ih =>
    rw [nameToIdxAux, if_neg (h node (by simp))]
    exact ih (fun n hn => h n (List.mem_cons_of_mem _ hn)) (k + 1)

/-- C9: a path query whose source or destination name (after trimming
surrounding whitespace) matches no known node resolves to `-1` and the
run takes the non-fatal skip outcome. -/
theorem C9_unresolved_path_query_skips (nodes : List VNode) (src dst : String)
    (h : (∀ n ∈ nodes, n.name ≠ pyStrip src) ∨ (∀ n ∈ nodes, n.name ≠ pyStrip dst)) :
    spfBlock nodes (some src) (some dst) = SpfOutcome.skipped := by
  unfold spfBlock
  cases h with
  | inl hs =>
    have : name_to_idx nodes src = -1 := nameToIdxAux_eq_neg_one hs 0
    simp [this]
  | inr hd =>
    have : name_to_idx nodes dst = -1 := nameToIdxAux_eq_neg_one hd 0
    simp [this]

/-- Witness for C9: one known node named `R1`, destination ` R9 ` (with
surrounding whitespace) unresolvable. -/
theorem C9_unresolved_path_query_skips_witness :
    spfBlock [VNode.make "R1" "0000.0000.0001" 0] (some "R1") (some " R9 ") =
      SpfOutcome.skipped :=
  C9_unresolved_path_query_skips [VNode.make "R1" "0000.0000.0001" 0] "R1" " R9 "
    (Or.inr (by decide))

/-! ## Adjacency extraction (`get_inf_adjs`) and the adjacency matrix -/

/-- One adjacency sub-record of an interface record (keyed `[1]` in the
snapshot; the code assumes at most one adjacency per interface). -/
structure AdjRecord where
  snpa : String
  oper_state : String
  nbr_system_id : String
  sid_value : Int
  deriving Repr, DecidableEq

/-- One interface record of the snapshot. -/
structure InfRecord where
  inf_name : String
  adjacency : Option AdjRecord
  deriving Repr, DecidableEq

/-- One node's ISIS state snapshot, as consumed by `get_inf_adjs`. -/
structure IsisSnapshot where
  oper_system_id : String
  interfaces : List InfRecord
  deriving Repr, DecidableEq

/-- The adjacency matrix: a list of rows of `None`-or-`VEdge` cells. -/
abbrev AdjMatrix := List (List (Option VEdge))

/-- Resolve a Python list index against a length: negative indices count
from the end. -/
def pyNat (len : Nat) (i : Int) : Nat :=
  if i < 0 then len - (-i).toNat else i.toNat

/-- Read `adj_martix[i][j]` with Python indexing semantics. -/
def mGet (m : AdjMatrix) (i j : Int) : Option VEdge :=
  match m[pyNat m.length i]? with
  | some row =>
    match row[pyNat row.length j]? with
    | some cell => cell
    | none => none
  | none => none

/-- Write `adj_martix[i][j] = v` with Python indexing semantics. -/
def mSet (m : AdjMatrix) (i j : Int) (v : VEdge) : AdjMatrix :=
  match m[pyNat m.length i]? with
  | some row => m.set (pyNat m.length i) (row.set (pyNat row.length j) (some v))
  | none => m

/-- The mutable state of adjacency extraction: the output list of the
current `get_inf_adjs` call, the shared matrix, and the uuid counter
modelling `uuid.uuid4()` freshness. -/
structure ExtractState where
  adjs : List VEdge
  matrix : AdjMatrix
  ctr : Nat
  deriving Repr, DecidableEq

/-- One iteration of the interface loop of `get_inf_adjs`: skip
interfaces without an adjacency, skip adjacencies not `up`, normalize
the neighbor id, skip unknown neighbors, build the `VEdge`, fill the
matrix cell only if it is empty, and append the edge to the output. -/
def processInf (node_id : String) (nodes : List VNode)
    (st : ExtractState) (inf : InfRecord) : ExtractState :=
  match inf.adjacency with
  | none => st
  | some adj =>
    if adj.oper_state = "up" then
      let nbr_id := normSysId adj.nbr_system_id
      if sys_id_in_nodes nodes nbr_id then
        let src_idx := sys_to_idx nodes node_id
        let dst_idx := sys_to_idx nodes nbr_id
        match pyGet nodes src_idx, pyGet nodes dst_idx with
        | some sn, some dn =>
          let ve : VEdge := { uuid := st.ctr, src := sn, dst := dn,
                              adj_sid := adj.sid_value, inf_name := inf.inf_name,
                              nei_snpa := adj.snpa, inf_mac := none }
          let m' := if mGet st.matrix src_idx dst_idx = none
                    then mSet st.matrix src_idx dst_idx ve else st.matrix
          { adjs := st.adjs ++ [ve], matrix := m', ctr := st.ctr + 1 }
        | _, _ => st
      else st
    else st

/-- `get_inf_adjs`: fold the interface loop over the snapshot, starting
from an empty per-call output list. -/
def get_inf_adjs (isis : IsisSnapshot) (nodes : List VNode)
    (m : AdjMatrix) (ctr : Nat) : ExtractState :=
  isis.interfaces.foldl (processInf isis.oper_system_id nodes) ⟨[], m, ctr⟩

/-- The extraction loop of `main`: one `get_inf_adjs` call per snapshot,
all sharing the node list and the matrix, extending `all_adjs`. -/
def runSnapshots (snaps : List IsisSnapshot) (nodes : List VNode)
    (st : ExtractState) : ExtractState :=
  snaps.foldl (fun acc snap =>
    let r := get_inf_adjs snap nodes acc.matrix acc.ctr
    { adjs := acc.adjs ++ r.adjs, matrix := r.matrix, ctr := r.ctr }) st

theorem mGet_mSet_preserve {m : AdjMatrix} {a b i j : Int} {ve e : VEdge}
    (hnone : mGet m a b = none) (hsome : mGet m i j = some e) :
    mGet (mSet m a b ve) i j = some e := by
  unfold mSet
  cases hrowA : m[pyNat m.length a]? with
  | none => simpa [hrowA] using hsome
  | some rowA =>
    unfold mGet at hsome hnone ⊢
    simp only [hrowA] at hnone
    by_cases hri : pyNat m.length i = pyNat m.length a
    · cases hrowI : m[pyNat m.length i]? with
      | none =>
        rw [hri, hrowA] at hrowI
        exact absurd hrowI (by simp)
      | some rowI =>
        have hIA : rowI = rowA := by
          rw [hri, hrowA] at hrowI
          exact (Option.some_injective _ hrowI).symm
        simp only [hrowI, hIA] at hsome
        have hlen : (m.set (pyNat m.length a)
            (rowA.set (pyNat rowA.length b) (some ve))).length = m.length :=
          List.length_set ..
        rw [hlen, hri]
        have hbound : pyNat m.length a < m.length := by
          have := List.getElem?_eq_some_iff.mp hrowA
          exact this.1
        rw [List.getElem?_set_self hbound]
        dsimp only
        have hrlen : (rowA.set (pyNat rowA.length b) (some ve)).length = rowA.length :=
          List.length_set ..
        rw [hrlen]
        by_cases hcj : pyNat rowA.length j = pyNat rowA.length b
        · rw [hcj] at hsome
          cases hcell : rowA[pyNat rowA.length b]? with
          | none => simp [hcell] at hsome
          | some cell =>
            simp only [hcell] at hsome hnone
            rw [hsome] at hnone
            exact absurd hnone (by simp)
        · rw [List.getElem?_set_ne (fun hh => hcj hh.symm)]
          exact hsome
    · have hlen : (m.set (pyNat m.length a)
          (rowA.set (pyNat rowA.length b) (some ve))).length = m.length :=
        List.length_set ..
      rw [hlen, List.getElem?_set_ne (fun hh => hri hh.symm)]
      exact hsome

theorem processInf_preserve_cell {node_id : String} {nodes : List VNode}
    {st : ExtractState} {inf : InfRecord} {i j : Int} {e : VEdge}
    (h : mGet st.matrix i j = some e) :
    mGet (processInf node_id nodes st inf).matrix i j = some e := by
  unfold processInf
  cases inf.adjacency with
  | none => exact h
  | some adj =>
    simp only
    by_cases hup : adj.oper_state = "up"
    · simp only [if_pos hup]
      by_cases hmem : sys_id_in_nodes nodes (normSysId adj.nbr_system_id)
      · simp only [if_pos hmem]
        cases pyGet nodes (sys_to_idx nodes node_id) with
        | none => exact h
        | some sn =>
          cases pyGet nodes (sys_to_idx nodes (normSysId adj.nbr_system_id)) with
          | none => exact h
          | some dn =>
            simp only
            by_cases hcell : mGet st.matrix (sys_to_idx nodes node_id)
                (sys_to_idx nodes (normSysId adj.nbr_system_id)) = none
            · simp only [if_pos hcell]
              exact mGet_mSet_preserve hcell h
            · simp only [if_neg hcell]
              exact h
      · simp only [if_neg hmem]
        exact h
    · simp only [if_neg hup]
      exact h

theorem foldl_preserve {α σ : Type} (P : σ → Prop) (f : σ → α → σ)
    (hstep : ∀ s a, P s → P (f s a)) :
    ∀ (l : List α) (s : σ), P s → P (l.foldl f s) := by
  intro l
  induction l with
  | nil => intro s hs; exact hs
  | cons a rest ih =>
    intro s hs
    exact ih (f s a) (hstep s a hs)

/-- C4: a non-empty adjacency-matrix cell is never overwritten — the
first `Link` recorded at `(i, j)` survives any further sequence of
adjacency-extraction calls, and a single extraction step only writes a
cell that is still empty. -/
theorem C4_matrix_first_wins (snaps : List IsisSnapshot) (nodes : List VNode)
    (st : ExtractState) (i j : Int) (e : VEdge)
    (h : mGet st.matrix i j = some e) :
    mGet (runSnapshots snaps nodes st).matrix i j = some e ∧
    ∀ (node_id : String) (inf : InfRecord),
      mGet (processInf node_id nodes st inf).matrix i j = some e := by
  constructor
  · unfold runSnapshots
    refine foldl_preserve (fun s : ExtractState => mGet s.matrix i j = some e)
      (fun acc snap =>
        let r := get_inf_adjs snap nodes acc.matrix acc.ctr
        { adjs := acc.adjs ++ r.adjs, matrix := r.matrix, ctr := r.ctr })
      (fun acc snap hs => ?_) snaps st h
    show mGet (get_inf_adjs snap nodes acc.matrix acc.ctr).matrix i j = some e
    unfold get_inf_adjs
    exact foldl_preserve (fun s : ExtractState => mGet s.matrix i j = some e)
      (processInf snap.oper_system_id nodes)
      (fun s a hsa => processInf_preserve_cell hsa) snap.interfaces
      ⟨[], acc.matrix, acc.ctr⟩ hs
  · intro node_id inf
    exact processInf_preserve_cell h

/-- The two concrete nodes used by the witnesses below. -/
def nodeR1 : VNode := VNode.make "R1" "0000.0000.0001" 0

def nodeR2 : VNode := VNode.make "R2" "0000.0000.0002" 1

/-- A concrete edge used to pre-fill matrix cells in witnesses. -/
def edgeW : VEdge := VEdge.make nodeR1 nodeR2 20001 7

/-- Witness for C4: cell (0, 1) pre-filled, one snapshot rediscovering
the same directed pair with a different adjacency-SID; the cell keeps
the original edge. -/
theorem C4_matrix_first_wins_witness :
    mGet (runSnapshots
      [⟨"0000.0000.0001", [⟨"to-R2", some ⟨"0xaaaaaaaaaaaa", "up", "0x000000000002", 20099⟩⟩]⟩]
      [nodeR1, nodeR2]
      ⟨[], [[none, some edgeW], [none, none]], 10⟩).matrix 0 1 = some edgeW :=
  (C4_matrix_first_wins
    [⟨"0000.0000.0001", [⟨"to-R2", some ⟨"0xaaaaaaaaaaaa", "up", "0x000000000002", 20099⟩⟩]⟩]
    [nodeR1, nodeR2]
    ⟨[], [[none, some edgeW], [none, none]], 10⟩ 0 1 edgeW (by decide)).1

/-- C5: an interface whose adjacency is up but whose normalized neighbor
system-id matches no known node contributes zero Links and leaves the
extraction state (in particular every matrix cell) unchanged. -/
theorem C5_unknown_neighbor_skipped (node_id : String) (nodes : List VNode)
    (st : ExtractState) (inf : InfRecord) (adj : AdjRecord)
    (hadj : inf.adjacency = some adj) (hup : adj.oper_state = "up")
    (hunknown : sys_id_in_nodes nodes (normSysId adj.nbr_system_id) = false) :
    processInf node_id nodes st inf = st := by
  unfold processInf
  rw [hadj]
  simp [hup, hunknown]

/-- Witness for C5: an up adjacency towards the out-of-domain neighbor
`0x000000000009` is dropped without touching the state. -/
theorem C5_unknown_neighbor_skipped_witness :
    processInf "0000.0000.0001" [nodeR1, nodeR2]
      ⟨[], [[none, none], [none, none]], 0⟩
      ⟨"to-R9", some ⟨"0xbbbbbbbbbbbb", "up", "0x000000000009", 20009⟩⟩ =
      ⟨[], [[none, none], [none, none]], 0⟩ :=
  C5_unknown_neighbor_skipped "0000.0000.0001" [nodeR1, nodeR2]
    ⟨[], [[none, none], [none, none]], 0⟩
    ⟨"to-R9", some ⟨"0xbbbbbbbbbbbb", "up", "0x000000000009", 20009⟩⟩
    ⟨"0xbbbbbbbbbbbb", "up", "0x000000000009", 20009⟩ rfl rfl (by decide)

/-! ## C10: unknown local system-id and Python negative indexing -/

theorem sysToIdxAux_eq_neg_one {nodes : List VNode} {sid : String}
    (h : ∀ n ∈ nodes, n.system_id ≠ sid) : ∀ k, sysToIdxAux nodes sid k = -1 := by
  intro k
  induction nodes generalizing k with
  | nil => rfl
  | cons node rest ih =>
    rw [sysToIdxAux, if_neg (h node (by simp))]
    exact ih (fun n hn => h n (List.mem_cons_of_mem _ hn)) (k + 1)

theorem sysToIdxAux_found {nodes : List VNode} {sid : String}
    (h : sys_id_in_nodes nodes sid = true) :
    ∀ k0 : Nat, ∃ (k : Nat) (n : VNode),
      sysToIdxAux nodes sid k0 = ((k0 + k : Nat) : Int) ∧
      nodes[k]? = some n ∧ n.system_id = sid := by
  induction nodes with
  | nil => exact absurd h (by simp [sys_id_in_nodes])
  | cons node rest ih =>
    intro k0
    by_cases hm : node.system_id = sid
    · exact ⟨0, node, by simp [sysToIdxAux, hm], by simp, hm⟩
    · have hrest : sys_id_in_nodes rest sid = true := by
        rw [sys_id_in_nodes, if_neg hm] at h
        exact h
      obtain ⟨k, n, haux, hget, hsid⟩ := ih hrest (k0 + 1)
      refine ⟨k + 1, n, ?_, ?_, hsid⟩
      · rw [sysToIdxAux, if_neg hm, haux]
        norm_num
        omega
      · simpa using hget

theorem pyGet_found {nodes : List VNode} {sid : String}
    (h : sys_id_in_nodes nodes sid = true) :
    ∃ n : VNode, pyGet nodes (sys_to_idx nodes sid) = some n ∧ n.system_id = sid := by
  obtain ⟨k, n, haux, hget, hsid⟩ := sysToIdxAux_found h 0
  refine ⟨n, ?_, hsid⟩
  unfold pyGet sys_to_idx
  rw [haux]
  simp only [Nat.zero_add] at *
  rw [if_neg (by omega)]
  simpa [Int.toNat_natCast] using hget

theorem pyGet_neg_one {nodes : List VNode} (h : nodes ≠ []) :
    pyGet nodes (-1) = nodes.getLast? := by
  unfold pyGet
  have hlen : 1 ≤ nodes.length := by
    cases nodes with
    | nil => exact absurd rfl h
    | cons a l => simp
  rw [if_pos (by norm_num), if_pos (by simpa using hlen)]
  rw [List.getLast?_eq_getElem?]
  norm_num

/-- C10: when the snapshot's own system-id is not in the node list, the
index lookup returns `-1`, Python indexing with `-1` selects the last
node, and the extracted Link is silently attributed to that last node,
whose system-id differs from the snapshot's `oper-system-id`; no error
is raised. -/
theorem C10_unknown_local_id_attributes_last (node_id : String) (nodes : List VNode)
    (st : ExtractState) (inf : InfRecord) (adj : AdjRecord)
    (hlocal : ∀ n ∈ nodes, n.system_id ≠ node_id)
    (hadj : inf.adjacency = some adj) (hup : adj.oper_state = "up")
    (hknown : sys_id_in_nodes nodes (normSysId adj.nbr_system_id) = true) :
    sys_to_idx nodes node_id = -1 ∧
    ∃ (lastN : VNode) (ve : VEdge),
      nodes.getLast? = some lastN ∧
      (processInf node_id nodes st inf).adjs = st.adjs ++ [ve] ∧
      ve.src = lastN ∧ ve.src.system_id ≠ node_id := by
  have hne : nodes ≠ [] := by
    intro he
    rw [he] at hknown
    exact absurd hknown (by simp [sys_id_in_nodes])
  have hsrc : sys_to_idx nodes node_id = -1 := sysToIdxAux_eq_neg_one hlocal 0
  obtain ⟨dn, hdn, hdnsid⟩ := pyGet_found hknown
  have hlast : pyGet nodes (-1) = nodes.getLast? := pyGet_neg_one hne
  obtain ⟨lastN, hlastN⟩ : ∃ lastN, nodes.getLast? = some lastN := by
    cases hl : nodes.getLast? with
    | none => exact absurd (List.getLast?_eq_none_iff.mp hl) hne
    | some x => exact ⟨x, rfl⟩
  rw [hlastN] at hlast
  refine ⟨hsrc, lastN,
    { uuid := st.ctr, src := lastN, dst := dn, adj_sid := adj.sid_value,
      inf_name := inf.inf_name, nei_snpa := adj.snpa, inf_mac := none },
    hlastN, ?_, rfl, hlocal lastN (List.mem_of_getLast?_eq_some hlastN)⟩
  unfold processInf
  rw [hadj]
  simp only [if_pos hup, if_pos hknown, hsrc, hlast, hdn]

/-- Witness for C10: node list `[R1, R2]`, snapshot claiming the absent
local id `9999.9999.9999`, one up adjacency towards `R1`. -/
theorem C10_unknown_local_id_attributes_last_witness :
    sys_to_idx [nodeR1, nodeR2] "9999.9999.9999" = -1 ∧
    ∃ (lastN : VNode) (ve : VEdge),
      [nodeR1, nodeR2].getLast? = some lastN ∧
      (processInf "9999.9999.9999" [nodeR1, nodeR2]
        ⟨[], [[none, none], [none, none]], 0⟩
        ⟨"to-R1", some ⟨"0xcccccccccccc", "up", "0x000000000001", 20010⟩⟩).adjs =
        ([] : List VEdge) ++ [ve] ∧
      ve.src = lastN ∧ ve.src.system_id ≠ "9999.9999.9999" :=
  C10_unknown_local_id_attributes_last "9999.9999.9999" [nodeR1, nodeR2]
    ⟨[], [[none, none], [none, none]], 0⟩
    ⟨"to-R1", some ⟨"0xcccccccccccc", "up", "0x000000000001", 20010⟩⟩
    ⟨"0xcccccccccccc", "up", "0x000000000001", 20010⟩
    (by decide) rfl rfl (by decide)

/-! ## Node-SID assignment (`main`, lines 367-373) -/

/-- One Segment-Routing prefix advertisement as consumed by the
Node-SID loop: the flag strings, the advertising system-id and the
label index. -/
structure PrefixSidRecord where
  flags : List String
  advertising_system_id : String
  label : Int
  deriving Repr, DecidableEq

/-- The Node-SID loop of `main`: for every advertisement whose flags
contain `bit-n`, every node whose system-id matches the advertising
system-id gets `nsid` set to `srgb_start + label`.  Each matching
advertisement assigns anew (no first-wins guard). -/
def assignNsids (srgb_start : Int) (psids : List PrefixSidRecord)
    (nodes : List VNode) : List VNode :=
  psids.foldl (fun ns p =>
    if "bit-n" ∈ p.flags then
      ns.map (fun node =>
        if node.system_id = p.advertising_system_id then
          VNode.setNsid node (srgb_start + p.label)
        else node)
    else ns) nodes

/-- The per-node effect of the Node-SID loop: the nsid a node ends up
with after all advertisements are folded over its initial nsid. -/
def nsidAfter (srgb_start : Int) (sid : String) (psids : List PrefixSidRecord)
    (init : Int) : Int :=
  psids.foldl (fun acc p =>
    if "bit-n" ∈ p.flags ∧ sid = p.advertising_system_id then srgb_start + p.label
    else acc) init

/-- C1 counterexample: with SRGB start 100 and two N-flagged
advertisements for the same system-id (label 5 then label 7), the
node's Node-SID ends as 107, not the claimed 105 of the first
advertisement — the later advertisement silently overrides. -/
theorem C1_counterexample :
    (assignNsids 100
      [⟨["bit-n"], "0000.0000.0001", 5⟩, ⟨["bit-n"], "0000.0000.0001", 7⟩]
      [VNode.make "R1" "0000.0000.0001" 0]).map VNode.nsid = [107] ∧
    (107 : Int) ≠ 100 + 5 := by
  constructor
  · decide
  · decide

theorem assignNsids_system_id_fixed (srgb_start : Int) (p : PrefixSidRecord)
    (node : VNode) :
    (if node.system_id = p.advertising_system_id then
        VNode.setNsid node (srgb_start + p.label)
      else node).system_id = node.system_id := by
  by_cases h : node.system_id = p.advertising_system_id <;> simp [h, VNode.setNsid]

/-- C1 amended: the Node-SID is `SRGB_start + label` of the LAST
N-flagged advertisement whose advertising system-id matches the node —
every matching advertisement overwrites the previous assignment; a node
matched by no advertisement keeps its initial nsid. -/
theorem C1_node_sid_last_advert_wins (srgb_start : Int)
    (psids : List PrefixSidRecord) (nodes : List VNode) :
    assignNsids srgb_start psids nodes =
      nodes.map (fun n =>
        { n with nsid := nsidAfter srgb_start n.system_id psids n.nsid }) := by
  induction psids generalizing nodes with
  | nil =>
    simp [assignNsids, nsidAfter]
  | cons p rest ih =>
    simp only [assignNsids, List.foldl_cons] at *
    by_cases hflag : "bit-n" ∈ p.flags
    · rw [if_pos hflag, ih]
      rw [List.map_map]
      refine List.map_congr_left ?_
      intro n hn
      simp only [Function.comp]
      by_cases hm : n.system_id = p.advertising_system_id
      · simp [hm, VNode.setNsid, nsidAfter, hflag]
      · simp [hm, VNode.setNsid, nsidAfter, hflag]
    · rw [if_neg hflag, ih]
      refine List.map_congr_left ?_
      intro n hn
      simp [nsidAfter, hflag]

/-! ## Link pairing (`draw_edges`) -/

/-- One entry of the `edge_labels` dictionary of `draw_edges`: a
directed multigraph edge keyed by `(u, v, inf_mac)` and carrying the
data fields read by the loop. -/
structure EdgeData where
  u : Nat
  v : Nat
  inf_mac : String
  nei_snpa : String
  inf_name : String
  adj_sid : Int
  deriving Repr, DecidableEq

/-- The dictionary lookup `edge_labels[(a, b, k)]` (keys are assumed
distinct, as produced by the multigraph). -/
def lookupEdge (es : List EdgeData) (a b : Nat) (k : String) : Option EdgeData :=
  es.find? (fun e => e.u == a && e.v == b && e.inf_mac == k)

/-- The edge label `inf + ' : ' + str(sid)`. -/
def edgeLbl (e : EdgeData) : String :=
  e.inf_name ++ " : " ++ toString e.adj_sid

/-- One element of the rendering plan produced by `draw_edges`: a
bidirectional unit at the normal curvature offset (0.1, `arc3,rad=0.2`)
or at the wide parallel offset (0.2, `arc3,rad=0.3`), each carrying the
two direction labels. -/
inductive RenderUnit where
  | bidirNormal (u v : Nat) (lblUV lblVU : String)
  | bidirWide (u v : Nat) (lblUV lblVU : String)
  deriving Repr, DecidableEq

/-- The loop state of `draw_edges`: `visited_adj`, `visited_pairs`, and
the rendering actions emitted so far. -/
structure DrawState where
  visitedAdj : List (Nat × Nat × String)
  visitedPairs : List (Nat × Nat)
  out : List RenderUnit
  deriving Repr, DecidableEq

/-- One iteration of the `draw_edges` loop over `(u, v, m)`.  In the
no-reverse branch the source evaluates `mid + np.array[dx, dy]`, which
subscripts the `np.array` function instead of calling it and raises
`TypeError`; that branch is therefore an error, not a render action. -/
def drawStep (es : List EdgeData) (st : DrawState) (e : EdgeData) :
    Except String DrawState :=
  if (e.u, e.v, e.inf_mac) ∈ st.visitedAdj then Except.ok st
  else
    match lookupEdge es e.v e.u e.nei_snpa with
    | some rev =>
      if (e.u, e.v) ∈ st.visitedPairs then
        if (e.v, e.u) ∈ st.visitedPairs then Except.ok st
        else Except.ok { st with
          out := st.out ++ [RenderUnit.bidirWide e.u e.v (edgeLbl e) (edgeLbl rev)],
          visitedPairs := st.visitedPairs ++ [(e.v, e.u)] }
      else Except.ok { st with
        out := st.out ++ [RenderUnit.bidirNormal e.u e.v (edgeLbl e) (edgeLbl rev)],
        visitedAdj := st.visitedAdj ++ [(e.u, e.v, e.inf_mac), (e.v, e.u, e.nei_snpa)],
        visitedPairs := st.visitedPairs ++ [(e.u, e.v)] }
    | none => Except.error "TypeError: np.array is not subscriptable"

/-- The `draw_edges` loop body folded over the iteration order of
`edge_labels`. -/
def drawLoop (es : List EdgeData) : DrawState → List EdgeData → Except String DrawState
  | st, [] => Except.ok st
  | st, e :: rest =>
    match drawStep es st e with
    | Except.ok st' => drawLoop es st' rest
    | Except.error msg => Except.error msg

/-- `draw_edges`: iterate over all edges starting from empty visited
bookkeeping, returning the rendering plan (or the raised error). -/
def draw_edges (es : List EdgeData) : Except String (List RenderUnit) :=
  (drawLoop es ⟨[], [], []⟩ es).map DrawState.out

/-- Does a render unit record a normal-offset bidirectional pair for
the ordering `(u, v)`? -/
def isNormalUV (u v : Nat) : RenderUnit → Bool
  | RenderUnit.bidirNormal a b _ _ => a == u && b == v
  | _ => false

/-- Number of normal-offset bidirectional units for the ordering
`(u, v)` in a plan. -/
def countNormal (u v : Nat) (plan : List RenderUnit) : Nat :=
  plan.countP (isNormalUV u v)

/-- C6 (code bug): a directed link with no reverse counterpart makes
`draw_edges` raise `TypeError` (line 239 subscripts the `np.array`
function) instead of rendering the unidirectional midpoint label. -/
theorem C6_unidirectional_link_raises :
    draw_edges [⟨0, 1, "0xaaaaaaaaaaa1", "0xbbbbbbbbbbb1", "A-1", 21⟩] =
      Except.error "TypeError: np.array is not subscriptable" := by
  rfl

theorem countNormal_snoc_normal (u v a b : Nat) (s t : String) (l : List RenderUnit) :
    countNormal u v (l ++ [RenderUnit.bidirNormal a b s t]) =
      countNormal u v l + (if a = u ∧ b = v then 1 else 0) := by
  unfold countNormal
  rw [List.countP_append]
  congr 1
  simp only [List.countP_cons, List.countP_nil, isNormalUV, Nat.zero_add]
  by_cases h : a = u ∧ b = v
  · simp [h.1, h.2]
  · rw [if_neg h]
    by_cases h1 : a = u
    · have h2 : ¬b = v := fun hb => h ⟨h1, hb⟩
      simp [h1, h2]
    · simp [h1]

theorem countNormal_snoc_wide (u v a b : Nat) (s t : String) (l : List RenderUnit) :
    countNormal u v (l ++ [RenderUnit.bidirWide a b s t]) = countNormal u v l := by
  unfold countNormal
  rw [List.countP_append]
  simp [List.countP_cons, isNormalUV]

/-- The loop invariant of `draw_edges`: normal-offset units are unique
per node ordering, exist exactly when that ordering was visited as a
pair and the opposite ordering was not, every wide-offset unit is
preceded by exactly one fully visited normal pair of the same ordering,
and every wide-offset unit has a reverse-direction edge in the edge
set. -/
def DrawInv (es : List EdgeData) (st : DrawState) : Prop :=
  (∀ u v, countNormal u v st.out ≤ 1) ∧
  (∀ u v, (u, v) ∉ st.visitedPairs → countNormal u v st.out = 0) ∧
  (∀ u v, (u, v) ∈ st.visitedPairs → (v, u) ∉ st.visitedPairs →
    countNormal u v st.out = 1) ∧
  (∀ u v s t, RenderUnit.bidirWide u v s t ∈ st.out → countNormal u v st.out = 1) ∧
  (∀ u v s t, RenderUnit.bidirWide u v s t ∈ st.out →
    ∃ rev, rev ∈ es ∧ rev.u = v ∧ rev.v = u)

theorem drawStep_inv {es : List EdgeData} {st st' : DrawState} {e : EdgeData}
    (hstep : drawStep es st e = Except.ok st') (hinv : DrawInv es st) :
    DrawInv es st' := by
  obtain ⟨I1, I2, I3, I4, I5⟩ := hinv
  unfold drawStep at hstep
  by_cases hv : (e.u, e.v, e.inf_mac) ∈ st.visitedAdj
  · rw [if_pos hv] at hstep
    cases hstep
    exact ⟨I1, I2, I3, I4, I5⟩
  · rw [if_neg hv] at hstep
    cases hrev : lookupEdge es e.v e.u e.nei_snpa with
    | none =>
      rw [hrev] at hstep
      cases hstep
    | some rev =>
      rw [hrev] at hstep
      dsimp only at hstep
      have hrevMem : rev ∈ es := List.mem_of_find?_eq_some hrev
      have hrevPred := List.find?_some hrev
      simp only [Bool.and_eq_true, beq_iff_eq] at hrevPred
      by_cases hp1 : (e.u, e.v) ∈ st.visitedPairs
      · rw [if_pos hp1] at hstep
        by_cases hp2 : (e.v, e.u) ∈ st.visitedPairs
        · rw [if_pos hp2] at hstep
          cases hstep
          exact ⟨I1, I2, I3, I4, I5⟩
        · rw [if_neg hp2] at hstep
          cases hstep
          refine ⟨?_, ?_, ?_, ?_, ?_⟩
          · intro u v
            simpa only [countNormal_snoc_wide] using I1 u v
          · intro u v hnm
            simp only [countNormal_snoc_wide]
            exact I2 u v (fun hm => hnm (List.mem_append_left _ hm))
          · intro u v hm hnm
            simp only [countNormal_snoc_wide]
            rcases List.mem_append.mp hm with hmo | hmn
            · exact I3 u v hmo (fun hh => hnm (List.mem_append_left _ hh))
            · exfalso
              have hpair := List.mem_singleton.mp hmn
              have hu : u = e.v := congrArg Prod.fst hpair
              have hv2 : v = e.u := congrArg Prod.snd hpair
              exact hnm (List.mem_append_left _ (hu ▸ hv2 ▸ hp1))
          · intro u v s t hm
            simp only [countNormal_snoc_wide]
            rcases List.mem_append.mp hm with hmo | hmn
            · exact I4 u v s t hmo
            · have hpair := List.mem_singleton.mp hmn
              have hu : e.u = u := congrArg (fun r => match r with
                | RenderUnit.bidirWide a _ _ _ => a
                | RenderUnit.bidirNormal a _ _ _ => a) hpair.symm
              have hv2 : e.v = v := congrArg (fun r => match r with
                | RenderUnit.bidirWide _ b _ _ => b
                | RenderUnit.bidirNormal _ b _ _ => b) hpair.symm
              exact hu ▸ hv2 ▸ I3 e.u e.v hp1 hp2
          · intro u v s t hm
            rcases List.mem_append.mp hm with hmo | hmn
            · exact I5 u v s t hmo
            · have hpair := List.mem_singleton.mp hmn
              have hu : e.u = u := congrArg (fun r => match r with
                | RenderUnit.bidirWide a _ _ _ => a
                | RenderUnit.bidirNormal a _ _ _ => a) hpair.symm
              have hv2 : e.v = v := congrArg (fun r => match r with
                | RenderUnit.bidirWide _ b _ _ => b
                | RenderUnit.bidirNormal _ b _ _ => b) hpair.symm
              exact ⟨rev, hrevMem, hv2 ▸ hrevPred.1.1, hu ▸ hrevPred.1.2⟩
      · rw [if_neg hp1] at hstep
        cases hstep
        have hcount0 : countNormal e.u e.v st.out = 0 := I2 e.u e.v hp1
        refine ⟨?_, ?_, ?_, ?_, ?_⟩
        · intro u v
          rw [countNormal_snoc_normal]
          by_cases h : e.u = u ∧ e.v = v
          · rw [if_pos h, ← h.1, ← h.2, hcount0]
          · rw [if_neg h]
            simpa using I1 u v
        · intro u v hnm
          rw [countNormal_snoc_normal]
          have hne : ¬(e.u = u ∧ e.v = v) := by
            intro hh
            exact hnm (List.mem_append_right _ (by simp [hh.1, hh.2]))
          rw [if_neg hne, Nat.add_zero]
          exact I2 u v (fun hmo => hnm (List.mem_append_left _ hmo))
        · intro u v hm hnm
          rw [countNormal_snoc_normal]
          have hnvu : (v, u) ∉ st.visitedPairs :=
            fun hh => hnm (List.mem_append_left _ hh)
          rcases List.mem_append.mp hm with hmo | hmn
          · have hne : ¬(e.u = u ∧ e.v = v) := by
              intro hh
              exact hp1 (hh.1 ▸ hh.2 ▸ hmo)
            rw [if_neg hne, Nat.add_zero]
            exact I3 u v hmo hnvu
          · have hpair := List.mem_singleton.mp hmn
            have hu : u = e.u := congrArg Prod.fst hpair
            have hv2 : v = e.v := congrArg Prod.snd hpair
            rw [if_pos ⟨hu.symm, hv2.symm⟩, hu, hv2, hcount0]
        · intro u v s t hm
          rw [countNormal_snoc_normal]
          rcases List.mem_append.mp hm with hmo | hmn
          · have hne : ¬(e.u = u ∧ e.v = v) := by
              intro hh
              have := I4 u v s t hmo
              rw [← hh.1, ← hh.2, hcount0] at this
              exact Nat.zero_ne_one this
            rw [if_neg hne, Nat.add_zero]
            exact I4 u v s t hmo
          · exact absurd (List.mem_singleton.mp hmn) (by simp)
        · intro u v s t hm
          rcases List.mem_append.mp hm with hmo | hmn
          · exact I5 u v s t hmo
          · exact absurd (List.mem_singleton.mp hmn) (by simp)

theorem drawLoop_inv {es : List EdgeData} :
    ∀ {l : List EdgeData} {st st' : DrawState},
      drawLoop es st l = Except.ok st' → DrawInv es st → DrawInv es st' := by
  intro l
  induction l with
  | nil =>
    intro st st' h hi
    cases h
    exact hi
  | cons e rest ih =>
    intro st st' h hi
    unfold drawLoop at h
    cases hs : drawStep es st e with
    | ok st1 =>
      rw [hs] at h
      exact ih h (drawStep_inv hs hi)
    | error msg =>
      rw [hs] at h
      cases h

/-- One bidirectional pair between nodes 0 and 1: forward `A-1`
(SID 21) and reverse `B-1` (SID 11), keyed per the protocol pairing
rule (each side's announcement address is the other side's key). -/
def pairEdges1 : List EdgeData :=
  [⟨0, 1, "0xaaaaaaaaaaa1", "0xbbbbbbbbbbb1", "A-1", 21⟩,
   ⟨1, 0, "0xbbbbbbbbbbb1", "0xaaaaaaaaaaa1", "B-1", 11⟩]

/-- Three independent bidirectional pairs between nodes 0 and 1. -/
def pairEdges3 : List EdgeData :=
  [⟨0, 1, "0xaaaaaaaaaaa1", "0xbbbbbbbbbbb1", "A-1", 21⟩,
   ⟨1, 0, "0xbbbbbbbbbbb1", "0xaaaaaaaaaaa1", "B-1", 11⟩,
   ⟨0, 1, "0xaaaaaaaaaaa2", "0xbbbbbbbbbbb2", "A-2", 22⟩,
   ⟨1, 0, "0xbbbbbbbbbbb2", "0xaaaaaaaaaaa2", "B-2", 12⟩,
   ⟨0, 1, "0xaaaaaaaaaaa3", "0xbbbbbbbbbbb3", "A-3", 23⟩,
   ⟨1, 0, "0xbbbbbbbbbbb3", "0xaaaaaaaaaaa3", "B-3", 13⟩]

/-- C2: one forward/reverse pair yields exactly one bidirectional unit
with two distinct labels; a second pair between the same nodes is
rendered wide-offset and a third is silently dropped; in any run, a
wide-offset unit for ordering `(u, v)` occurs only with exactly one
normal pair fully visited for that ordering, and only when a
reverse-direction link exists — a one-directional link never reaches
the parallel-offset branch. -/
theorem C2_link_pairing (es : List EdgeData) (plan : List RenderUnit)
    (u v : Nat) (s t : String)
    (hok : draw_edges es = Except.ok plan)
    (hw : RenderUnit.bidirWide u v s t ∈ plan) :
    (countNormal u v plan = 1 ∧ ∃ rev, rev ∈ es ∧ rev.u = v ∧ rev.v = u) ∧
    draw_edges pairEdges1 =
      Except.ok [RenderUnit.bidirNormal 0 1 "A-1 : 21" "B-1 : 11"] ∧
    ("A-1 : 21" : String) ≠ "B-1 : 11" ∧
    draw_edges pairEdges3 =
      Except.ok [RenderUnit.bidirNormal 0 1 "A-1 : 21" "B-1 : 11",
                 RenderUnit.bidirWide 0 1 "A-2 : 22" "B-2 : 12"] := by
  have hplan : ∃ stF, drawLoop es ⟨[], [], []⟩ es = Except.ok stF ∧ stF.out = plan := by
    unfold draw_edges at hok
    cases hL : drawLoop es ⟨[], [], []⟩ es with
    | ok stF =>
      rw [hL] at hok
      exact ⟨stF, rfl, by injection hok⟩
    | error m =>
      rw [hL] at hok
      cases hok
  obtain ⟨stF, hL, hout⟩ := hplan
  have hinv0 : DrawInv es ⟨[], [], []⟩ := by
    refine ⟨fun u v => ?_, fun u v _ => ?_, fun u v hm => ?_,
      fun u v s t hm => ?_, fun u v s t hm => ?_⟩
    · simp [countNormal]
    · simp [countNormal]
    · exact absurd hm (by simp)
    · exact absurd hm (by simp)
    · exact absurd hm (by simp)
  have hinvF := drawLoop_inv hL hinv0
  subst hout
  exact ⟨⟨hinvF.2.2.2.1 u v s t hw, hinvF.2.2.2.2 u v s t hw⟩, by rfl, by decide, by rfl⟩

/-- Witness for C2 at the three-pair scenario: the wide unit of the
second pair is in the plan, so exactly one normal unit for `(0, 1)`
precedes it and a reverse link exists. -/
theorem C2_link_pairing_witness :
    (countNormal 0 1
        [RenderUnit.bidirNormal 0 1 "A-1 : 21" "B-1 : 11",
         RenderUnit.bidirWide 0 1 "A-2 : 22" "B-2 : 12"] = 1 ∧
      ∃ rev, rev ∈ pairEdges3 ∧ rev.u = 1 ∧ rev.v = 0) ∧
    draw_edges pairEdges1 =
      Except.ok [RenderUnit.bidirNormal 0 1 "A-1 : 21" "B-1 : 11"] ∧
    ("A-1 : 21" : String) ≠ "B-1 : 11" ∧
    draw_edges pairEdges3 =
      Except.ok [RenderUnit.bidirNormal 0 1 "A-1 : 21" "B-1 : 11",
                 RenderUnit.bidirWide 0 1 "A-2 : 22" "B-2 : 12"] :=
  C2_link_pairing pairEdges3
    [RenderUnit.bidirNormal 0 1 "A-1 : 21" "B-1 : 11",
     RenderUnit.bidirWide 0 1 "A-2 : 22" "B-2 : 12"]
    0 1 "A-2 : 22" "B-2 : 12" (by rfl) (by decide)

end SRexplorer
